import Mathlib

/-!
Verification development for the STM32L011 electronic thermometer firmware.

The definitions below are a shallow embedding of the core of the firmware:
the BME280 compensation pipeline (`bme280.c`), the OLED framebuffer glyph
renderer (`oled.c`), the value-to-text formatter and the RTC alarm
rescheduler (`main.c`).  Machine integers are modelled as `Int`/`Nat` with
explicit two-complement wrapping; C `/` and `%` on signed operands are
`Int.tdiv` and `Int.tmod` (truncation toward zero); C `>>` on signed values
is arithmetic shift, i.e. floor division by a power of two, which on `Int`
is `/` (Euclidean division, equal to floor division for positive divisors).
-/

namespace Thermo

/-- Two-complement wrap of an integer into the int32 range. -/
def toInt32 (x : Int) : Int := (x + 2147483648) % 4294967296 - 2147483648

/-- Two-complement wrap of an integer into the int64 range. -/
def toInt64 (x : Int) : Int :=
  (x + 9223372036854775808) % 18446744073709551616 - 9223372036854775808

/-- Two-complement wrap of an integer into the int16 range. -/
def toInt16 (x : Int) : Int := (x + 32768) % 65536 - 32768

/-- Two-complement wrap of an integer into the int8 range. -/
def toInt8 (x : Int) : Int := (x + 128) % 256 - 128

/-- Arithmetic shift right by `n` bits (C signed `>>` on ARM). -/
def sar (x : Int) (n : Nat) : Int := x / 2 ^ n

/-- int32 addition with wrap. -/
def add32 (a b : Int) : Int := toInt32 (a + b)

/-- int32 subtraction with wrap. -/
def sub32 (a b : Int) : Int := toInt32 (a - b)

/-- int32 multiplication with wrap. -/
def mul32 (a b : Int) : Int := toInt32 (a * b)

/-- int32 left shift with wrap. -/
def shl32 (a : Int) (n : Nat) : Int := toInt32 (a * 2 ^ n)

/-- int64 addition with wrap. -/
def add64 (a b : Int) : Int := toInt64 (a + b)

/-- int64 subtraction with wrap. -/
def sub64 (a b : Int) : Int := toInt64 (a - b)

/-- int64 multiplication with wrap. -/
def mul64 (a b : Int) : Int := toInt64 (a * b)

/-- int64 left shift with wrap. -/
def shl64 (a : Int) (n : Nat) : Int := toInt64 (a * 2 ^ n)

/-- Value of an `int` expression stored into an unsigned `char` cell
(plain `char` is unsigned on the ARM EABI): low 8 bits. -/
def charOf (v : Int) : Nat := (v % 256).toNat

/-! ## Alarm rescheduler (`Set_Alarm_A_After_10_Minutes`, `main.c` 112-141)

```c
uint8_t new_seconds = (sTime.Seconds + 1) % 60;
uint8_t new_minutes = (sTime.Minutes + 10) % 60;
uint8_t new_hours = sTime.Hours + (new_minutes / 60);
new_minutes = new_minutes % 60;
new_hours = new_hours % 24;
```
The result `(new_hours, new_minutes, new_seconds)` is what is programmed
into the RTC alarm registers. -/

/-- The alarm time computed by `Set_Alarm_A_After_10_Minutes` from the
current time `(h, m, s)`, as the triple (hours, minutes, seconds). -/
def Set_Alarm_A_After_10_Minutes (h m s : Nat) : Nat × Nat × Nat :=
  let new_seconds := (s + 1) % 60
  let new_minutes := (m + 10) % 60
  let new_hours := h + new_minutes / 60
  (new_hours % 24, new_minutes % 60, new_seconds)

/-! ## Value-to-text formatter (`print_sensor_values`, `main.c` 66-110)

Each line is modelled as the list of byte values written into `line[]`,
in order, terminator included. -/

/-- The two fraction characters, byte 48 plus `f / 10` and byte 48 plus
`f % 10`, written by `print_sensor_values` for a fraction argument `f`. -/
def fracChars (f : Int) : Nat × Nat :=
  (charOf (48 + Int.tdiv f 10), charOf (48 + Int.tmod f 10))

/-- Characters of the temperature line before the terminator:
sign handling, up to three integer digits, the dot, two fraction
characters, the 0x60 degree mark and the letter C. -/
def tempBody (temp_i temp_f : Int) : List Nat :=
  let m : Int := if temp_i < 0 then toInt16 (-temp_i) else temp_i
  (if temp_i < 0 then [45] else []) ++
  (if 100 ≤ m then [charOf (48 + Int.tdiv m 100)] else []) ++
  (if 10 ≤ m then [charOf (48 + Int.tmod (Int.tdiv m 10) 10)] else []) ++
  [charOf (48 + Int.tmod m 10), 46,
   (fracChars temp_f).1, (fracChars temp_f).2, 96, 67]

/-- Bytes written into `line[]` for the temperature reading, terminator
included. -/
def tempLine (temp_i temp_f : Int) : List Nat := tempBody temp_i temp_f ++ [0]

/-- Characters of the humidity line before the terminator. -/
def humBody (hum_i hum_f : Int) : List Nat :=
  (if 100 ≤ hum_i then [charOf (48 + Int.tdiv hum_i 100)] else []) ++
  (if 10 ≤ hum_i then [charOf (48 + Int.tmod (Int.tdiv hum_i 10) 10)] else []) ++
  [charOf (48 + Int.tmod hum_i 10), 46,
   (fracChars hum_f).1, (fracChars hum_f).2, 37, 82]

/-- Bytes written into `line[]` for the humidity reading, terminator
included. -/
def humLine (hum_i hum_f : Int) : List Nat := humBody hum_i hum_f ++ [0]

/-- Characters of the pressure line before the terminator. -/
def pressBody (press_i press_f : Int) : List Nat :=
  (if 1000 ≤ press_i then [charOf (48 + Int.tdiv press_i 1000)] else []) ++
  (if 100 ≤ press_i then [charOf (48 + Int.tmod (Int.tdiv press_i 100) 10)] else []) ++
  (if 10 ≤ press_i then [charOf (48 + Int.tmod (Int.tdiv press_i 10) 10)] else []) ++
  [charOf (48 + Int.tmod press_i 10), 46,
   (fracChars press_f).1, (fracChars press_f).2, 104, 80, 97]

/-- Bytes written into `line[]` for the pressure reading, terminator
included. -/
def pressLine (press_i press_f : Int) : List Nat := pressBody press_i press_f ++ [0]

/-- A byte value is the ASCII code of a decimal digit. -/
def isDigitByte (n : Nat) : Prop := 48 ≤ n ∧ n ≤ 57

instance (n : Nat) : Decidable (isDigitByte n) := by
  unfold isDigitByte; infer_instance

/-! ## BME280 calibration store (`BME280_read_calibration`, `bme280.c` 52-78)

The two blocks read over I2C (26 bytes at 0x88, 7 bytes at 0xE1) are
modelled as functions from index to byte value.  Each field records the
value stored into the corresponding global, with the C conversion applied
at the assignment (uint16/int16/uint8/int8 stores). -/

/-- The calibration coefficients, as stored in the driver globals. -/
structure Calib where
  dig_T1 : Int
  dig_T2 : Int
  dig_T3 : Int
  dig_P1 : Int
  dig_P2 : Int
  dig_P3 : Int
  dig_P4 : Int
  dig_P5 : Int
  dig_P6 : Int
  dig_P7 : Int
  dig_P8 : Int
  dig_P9 : Int
  dig_H1 : Int
  dig_H2 : Int
  dig_H3 : Int
  dig_H4 : Int
  dig_H5 : Int
  dig_H6 : Int

/-- `BME280_read_calibration`: decode the 26-byte block `calib1` and the
7-byte block `calib2` into the coefficient globals. -/
def BME280_read_calibration (calib1 calib2 : Nat → Nat) : Calib :=
  { dig_T1 := ((calib1 1 <<< 8 ||| calib1 0) : Nat) % 65536
    dig_T2 := toInt16 ((calib1 3 <<< 8 ||| calib1 2 : Nat) : Int)
    dig_T3 := toInt16 ((calib1 5 <<< 8 ||| calib1 4 : Nat) : Int)
    dig_P1 := ((calib1 7 <<< 8 ||| calib1 6) : Nat) % 65536
    dig_P2 := toInt16 ((calib1 9 <<< 8 ||| calib1 8 : Nat) : Int)
    dig_P3 := toInt16 ((calib1 11 <<< 8 ||| calib1 10 : Nat) : Int)
    dig_P4 := toInt16 ((calib1 13 <<< 8 ||| calib1 12 : Nat) : Int)
    dig_P5 := toInt16 ((calib1 15 <<< 8 ||| calib1 14 : Nat) : Int)
    dig_P6 := toInt16 ((calib1 17 <<< 8 ||| calib1 16 : Nat) : Int)
    dig_P7 := toInt16 ((calib1 19 <<< 8 ||| calib1 18 : Nat) : Int)
    dig_P8 := toInt16 ((calib1 21 <<< 8 ||| calib1 20 : Nat) : Int)
    dig_P9 := toInt16 ((calib1 23 <<< 8 ||| calib1 22 : Nat) : Int)
    dig_H1 := (calib1 25 : Nat) % 256
    dig_H2 := toInt16 ((calib2 1 <<< 8 ||| calib2 0 : Nat) : Int)
    dig_H3 := (calib2 2 : Nat) % 256
    dig_H4 := toInt16 ((calib2 3 <<< 4 ||| (calib2 4 &&& 15) : Nat) : Int)
    dig_H5 := toInt16 ((calib2 5 <<< 4 ||| calib2 4 >>> 4 : Nat) : Int)
    dig_H6 := toInt8 (calib2 6 : Int) }

/-! ## BME280 temperature compensation (`BME280_read_data`, `bme280.c` 115-122)

```c
var1 = ((((adc_T >> 3) - ((int32_t)dig_T1 << 1))) * ((int32_t)dig_T2)) >> 11;
var2 = (((((adc_T >> 4) - ((int32_t)dig_T1)) * ((adc_T >> 4) - ((int32_t)dig_T1))) >> 12) *
        ((int32_t)dig_T3)) >> 14;
t_fine = var1 + var2;
T = (t_fine * 5 + 128) >> 8;
bme_data.temp_integer = T / 100;
bme_data.temp_fraction = T % 100;
```
All operations are int32 arithmetic; each wrapping operation is made
explicit. -/

/-- First temperature polynomial stage (`var1`). -/
def BME280_temp_var1 (adc_T : Int) (c : Calib) : Int :=
  sar (mul32 (sub32 (sar adc_T 3) (shl32 c.dig_T1 1)) c.dig_T2) 11

/-- Second temperature polynomial stage (`var2`). -/
def BME280_temp_var2 (adc_T : Int) (c : Calib) : Int :=
  sar (mul32 (sar (mul32 (sub32 (sar adc_T 4) c.dig_T1)
                         (sub32 (sar adc_T 4) c.dig_T1)) 12) c.dig_T3) 14

/-- The fine-temperature intermediate `t_fine = var1 + var2`. -/
def BME280_t_fine (adc_T : Int) (c : Calib) : Int :=
  add32 (BME280_temp_var1 adc_T c) (BME280_temp_var2 adc_T c)

/-- The scaled temperature `T = (t_fine * 5 + 128) >> 8`, in hundredths
of a degree Celsius. -/
def BME280_temp_scaled (adc_T : Int) (c : Calib) : Int :=
  sar (add32 (mul32 (BME280_t_fine adc_T c) 5) 128) 8

/-- The `(temp_integer, temp_fraction)` pair stored into `bme_data`
(int16 fields). -/
def BME280_temp (adc_T : Int) (c : Calib) : Int × Int :=
  let T := BME280_temp_scaled adc_T c
  (toInt16 (Int.tdiv T 100), toInt16 (Int.tmod T 100))

/-! ## BME280 pressure compensation (`BME280_read_data`, `bme280.c` 124-147)

The source keeps `var1` and `var2` in `int32_t` variables while the right
hand sides are `int64_t` expressions, so every store truncates to int32;
`p` is a genuine `int64_t`.  `var1 * var1` multiplies two `int32_t`
values in `int` arithmetic (wrapping) before widening. -/

/-- The divisor term `var1` tested by the division-by-zero guard:
built from `t_fine` and coefficients P1, P2, P3. -/
def BME280_press_var1 (t_fine : Int) (c : Calib) : Int :=
  let v1a := toInt32 (t_fine - 128000)
  let v1b := toInt32 (add64 (sar (mul64 (mul32 v1a v1a) c.dig_P3) 8)
                            (shl64 (mul64 v1a c.dig_P2) 12))
  toInt32 (sar (mul64 (add64 (shl64 1 47) v1b) c.dig_P1) 33)

/-- The additive correction term `var2`, built from `t_fine` and
coefficients P4, P5, P6. -/
def BME280_press_var2 (t_fine : Int) (c : Calib) : Int :=
  let v1a := toInt32 (t_fine - 128000)
  let v2a := toInt32 (mul64 (mul32 v1a v1a) c.dig_P6)
  let v2b := toInt32 (add64 v2a (shl64 (mul64 v1a c.dig_P5) 17))
  toInt32 (add64 v2b (shl64 c.dig_P4 35))

/-- The `(pressure_integer, pressure_fraction)` pair stored into
`bme_data`, including the zero-divisor guard and the
`PRESSURE_OFFSET = 200` subtraction on the integer hPa part. -/
def BME280_pressure (adc_P t_fine : Int) (c : Calib) : Int × Int :=
  let var1 := BME280_press_var1 t_fine c
  let var2 := BME280_press_var2 t_fine c
  if var1 = 0 then
    (0, 0)
  else
    let p0 := sub32 1048576 adc_P
    let p1 := toInt64 (Int.tdiv (mul64 (sub64 (shl64 p0 31) var2) 3125) var1)
    let var1b := toInt32 (sar (mul64 (mul64 c.dig_P9 (sar p1 13)) (sar p1 13)) 25)
    let var2b := toInt32 (sar (mul64 c.dig_P8 p1) 19)
    let p2 := toInt64 (add64 (sar (add64 (add64 p1 var1b) var2b) 8) (shl64 c.dig_P7 4))
    let pressure_pa := toInt32 (Int.tdiv p2 256)
    (toInt16 (Int.tdiv pressure_pa 100 - 200), toInt16 (Int.tmod pressure_pa 100))

/-! ## BME280 humidity compensation (`BME280_read_data`, `bme280.c` 149-162)

All operations are int32 arithmetic on `v_x1_u32r`; the value is clamped
into [0, 419430400] before the shift into 1024ths of %RH and the final
split into integer percent and hundredths. -/

/-- The humidity accumulator value after the two polynomial stages and
before clamping (`v_x1_u32r` right before the comparisons). -/
def BME280_hum_raw (adc_H t_fine : Int) (c : Calib) : Int :=
  let v0 := toInt32 (t_fine - 76800)
  let lhs := sar (add32 (sub32 (sub32 (shl32 adc_H 14) (shl32 c.dig_H4 20))
                               (mul32 c.dig_H5 v0)) 16384) 15
  let rhs := sar (add32 (mul32 (add32 (sar (mul32 (sar (mul32 v0 c.dig_H6) 10)
                                                  (add32 (sar (mul32 v0 c.dig_H3) 11) 32768)) 10)
                                      2097152) c.dig_H2) 8192) 14
  let v1 := mul32 lhs rhs
  sub32 v1 (sar (mul32 (sar (mul32 (sar v1 15) (sar v1 15)) 7) c.dig_H1) 4)

/-- The `(humidity_integer, humidity_fraction)` pair stored into
`bme_data`: clamp into [0, 419430400], shift into 1024ths of %RH, then
split into integer percent and hundredths. -/
def BME280_humidity (adc_H t_fine : Int) (c : Calib) : Int × Int :=
  let v := BME280_hum_raw adc_H t_fine c
  let v2 := if v < 0 then 0 else v
  let v3 := if 419430400 < v2 then 419430400 else v2
  let humidity := sar v3 12
  (toInt16 (Int.tdiv humidity 1024),
   toInt16 (Int.tdiv (mul32 (Int.tmod humidity 1024) 100) 1024))

/-! ## OLED framebuffer and glyph renderer (`oled.c`)

The framebuffer is `uint8_t buffer[128 * 8]`, modelled as a function from
linear index to byte; only indices below 1024 are ever written thanks to
the per-byte bounds guard in `oled_putc`.  The glyph table `font5x8`
lives in `font.h`, which is not part of the available sources, so the
renderer is parameterised by the table (glyph row index and column to
byte). -/

/-- One guarded byte store: `if (idx < sizeof(buffer)) buffer[idx] = v;`. -/
def bufWrite (buf : Nat → Nat) (idx : Nat) (v : Nat) : Nat → Nat :=
  if idx < 1024 then (fun j => if j = idx then v else buf j) else buf

/-- The `switch (c)` mapping a character code to a `font5x8` row index;
`none` models the `default: return;` branch. -/
def oled_glyph_index (c : Nat) : Option Nat :=
  if c = 32 then some 0
  else if c = 46 then some 1
  else if c = 44 then some 2
  else if c = 48 then some 3
  else if c = 49 then some 4
  else if c = 50 then some 5
  else if c = 51 then some 6
  else if c = 52 then some 7
  else if c = 53 then some 8
  else if c = 54 then some 9
  else if c = 55 then some 10
  else if c = 56 then some 11
  else if c = 57 then some 12
  else if c = 37 then some 13
  else if c = 104 then some 14
  else if c = 80 then some 15
  else if c = 97 then some 16
  else if c = 82 then some 17
  else if c = 67 then some 18
  else if c = 72 then some 19
  else if c = 96 then some 20
  else if c = 176 then some 20
  else none

/-- `oled_putc(x, y, c)`: bounds test, glyph lookup, then five glyph
columns and one blank spacing column written with per-byte bounds
guards.  `font` is the (externally defined) `font5x8` table. -/
def oled_putc (font : Nat → Nat → Nat) (buf : Nat → Nat)
    (x y : Nat) (c : Nat) : Nat → Nat :=
  if 128 ≤ x ∨ 8 ≤ y then buf
  else
    match oled_glyph_index c with
    | none => buf
    | some index =>
      let bi := y * 128 + x
      let b0 := bufWrite buf bi (font index 0)
      let b1 := bufWrite b0 (bi + 1) (font index 1)
      let b2 := bufWrite b1 (bi + 2) (font index 2)
      let b3 := bufWrite b2 (bi + 3) (font index 3)
      let b4 := bufWrite b3 (bi + 4) (font index 4)
      bufWrite b4 (bi + 5) 0

/-- A signed 16-bit field decodes the little-endian word with bytes
`lo`, `hi`: it is congruent to `256 * hi + lo` modulo 2^16 and lies in
the int16 range. -/
def decodesLE16 (v : Int) (lo hi : Nat) : Prop :=
  v % 65536 = 256 * hi + lo ∧ -32768 ≤ v ∧ v < 32768

/-- A signed 8-bit field decodes the byte `b`: congruent to `b` modulo
2^8 and in the int8 range. -/
def decodesS8 (v : Int) (b : Nat) : Prop :=
  v % 256 = b ∧ -128 ≤ v ∧ v < 128

/-! ## Theorems -/

/-- Claim C1, counterexample: the rescheduler run at current time
{0, 50, 30} with the 10-minute offset does not produce the alarm time
{1, 0, 31} asserted by the claim (the code produces {0, 0, 31}: the
minute-overflow carry is computed from minutes already reduced modulo 60
and is therefore always zero). -/
theorem C1_counterexample :
    Set_Alarm_A_After_10_Minutes 0 50 30 ≠ (1, 0, 31) := by decide

/-- Claim C1, amended: for every current time with hours in [0,23], the
alarm rescheduler adds one second to the seconds field modulo 60 and adds
the 10-minute offset to the minutes field modulo 60, but never carries
into the hours field: hours are returned unchanged.  In particular
nextAlarm({23,59,59}, 10) = {23, 9, 0} and
nextAlarm({0,50,30}, 10) = {0, 0, 31}. -/
theorem C1_amended_no_carry (h m s : Nat) (hh : h ≤ 23) :
    Set_Alarm_A_After_10_Minutes h m s = (h, (m + 10) % 60, (s + 1) % 60) := by
  show ((h + (m + 10) % 60 / 60) % 24, (m + 10) % 60 % 60, (s + 1) % 60) =
    (h, (m + 10) % 60, (s + 1) % 60)
  simp only [Prod.mk.injEq]
  exact ⟨by omega, by omega, trivial⟩

/-- Witness for the amended C1 theorem at the two boundary scenarios of
the claim. -/
theorem C1_amended_witness :
    Set_Alarm_A_After_10_Minutes 23 59 59 = (23, 9, 0) ∧
    Set_Alarm_A_After_10_Minutes 0 50 30 = (0, 0, 31) := by
  refine ⟨?_, ?_⟩
  · have h := C1_amended_no_carry 23 59 59 (by decide)
    simpa using h
  · have h := C1_amended_no_carry 0 50 30 (by decide)
    simpa using h

/-- Claim C3: for every raw pressure ADC word, fine-temperature value and
calibration set, if the first 64-bit pressure correction term (the
divisor built from P1, P2, P3 and the fine temperature) is exactly zero,
the pressure integer and fractional parts are both set to exactly 0,
regardless of the raw pressure value and the remaining coefficients. -/
theorem C3_pressure_zero_guard (adc_P t_fine : Int) (c : Calib)
    (h : BME280_press_var1 t_fine c = 0) :
    BME280_pressure adc_P t_fine c = (0, 0) := by
  simp [BME280_pressure, h]

/-- Witness for C3: a calibration set with P1 = 0 (and nonzero remaining
pressure coefficients) makes the divisor term zero, and the output is
(0, 0). -/
theorem C3_witness :
    BME280_press_var1 0 ⟨0, 0, 0, 0, 1, 1, 1, 1, 1, 1, 1, 1, 0, 0, 0, 0, 0, 0⟩ = 0 ∧
    BME280_pressure 5 0 ⟨0, 0, 0, 0, 1, 1, 1, 1, 1, 1, 1, 1, 0, 0, 0, 0, 0, 0⟩ = (0, 0) :=
  ⟨by decide, C3_pressure_zero_guard 5 0 _ (by decide)⟩

/-- Claim C6, counterexample: at column width − 1 = 127 (page 0) the call
is in bounds and the glyph blit zeroes the spacing byte at linear index
132, so a buffer holding 1 there is changed — refuting the assertion of
the claim that the buffer is left unchanged for calls at column
width − 1. -/
theorem C6_counterexample :
    oled_putc (fun _ _ => 0) (fun j => if j = 132 then 1 else 0) 127 0 48 132 ≠
      (fun j => if j = 132 then 1 else 0) 132 := by decide

/-- Claim C6, amended: for every column ≥ width (128) or page ≥
page-count (8), and every symbol, putGlyph is a no-op that leaves every
byte of the framebuffer unchanged (silently ignored, not an error); the
buffer is left unchanged in particular at columns width and width + 5.
At column width − 1 the call is in bounds and writes bytes. -/
theorem C6_amended_noop (font : Nat → Nat → Nat) (buf : Nat → Nat)
    (x y c : Nat) (h : 128 ≤ x ∨ 8 ≤ y) :
    oled_putc font buf x y c = buf := by
  unfold oled_putc
  rw [if_pos h]

/-- Witness for the amended C6 theorem: no-op at columns 128 = width and
133 = width + 5, and at a page past the page count. -/
theorem C6_witness :
    oled_putc (fun _ _ => 7) (fun j => j) 128 0 48 = (fun j => j) ∧
    oled_putc (fun _ _ => 7) (fun j => j) 133 2 48 = (fun j => j) ∧
    oled_putc (fun _ _ => 7) (fun j => j) 3 8 48 = (fun j => j) :=
  ⟨C6_amended_noop _ _ _ _ _ (Or.inl (by decide)),
   C6_amended_noop _ _ _ _ _ (Or.inl (by decide)),
   C6_amended_noop _ _ _ _ _ (Or.inr (by decide))⟩

/-- Helper: negation passes through the truncating remainder. -/
theorem tmod_neg_left (a b : Int) : Int.tmod (-a) b = -Int.tmod a b := by
  rw [Int.tmod_def, Int.tmod_def, Int.neg_tdiv]
  ring

/-- Helper: for a positive modulus the truncating remainder lies strictly
between -b and b. -/
theorem tmod_range (a b : Int) (hb : 0 < b) :
    -b < Int.tmod a b ∧ Int.tmod a b < b := by
  rcases le_or_lt 0 a with ha | ha
  · have h1 := Int.tmod_nonneg b ha
    have h2 := Int.tmod_lt_of_pos a hb
    omega
  · have h1 : 0 ≤ Int.tmod (-a) b := Int.tmod_nonneg b (by omega)
    have h2 : Int.tmod (-a) b < b := Int.tmod_lt_of_pos _ hb
    have h3 := tmod_neg_left a b
    omega

/-- Helper: the truncating remainder of a nonpositive value is
nonpositive. -/
theorem tmod_nonpos_left (a b : Int) (ha : a ≤ 0) : Int.tmod a b ≤ 0 := by
  have h1 : 0 ≤ Int.tmod (-a) b := Int.tmod_nonneg b (by omega)
  have h2 := tmod_neg_left a b
  omega

/-- The first temperature polynomial stage is bounded by the int32 range
shifted right by 11 bits, for all inputs. -/
theorem BME280_temp_var1_bounds (adc_T : Int) (c : Calib) :
    -1048576 ≤ BME280_temp_var1 adc_T c ∧ BME280_temp_var1 adc_T c ≤ 1048576 := by
  unfold BME280_temp_var1 mul32 toInt32 sar
  norm_num
  omega

/-- The second temperature polynomial stage is bounded by the int32 range
shifted right by 14 bits, for all inputs. -/
theorem BME280_temp_var2_bounds (adc_T : Int) (c : Calib) :
    -131072 ≤ BME280_temp_var2 adc_T c ∧ BME280_temp_var2 adc_T c ≤ 131072 := by
  unfold BME280_temp_var2 mul32 toInt32 sar
  norm_num
  omega

/-- The fine temperature never wraps: it is the plain sum of the two
polynomial stages and stays well inside the int32 range. -/
theorem BME280_t_fine_bounds (adc_T : Int) (c : Calib) :
    -1179648 ≤ BME280_t_fine adc_T c ∧ BME280_t_fine adc_T c ≤ 1179648 := by
  have h1 := BME280_temp_var1_bounds adc_T c
  have h2 := BME280_temp_var2_bounds adc_T c
  unfold BME280_t_fine add32 toInt32
  omega

/-- The scaled temperature (hundredths of a degree) is bounded, for all
raw words and calibration values. -/
theorem BME280_temp_scaled_bounds (adc_T : Int) (c : Calib) :
    -23041 ≤ BME280_temp_scaled adc_T c ∧ BME280_temp_scaled adc_T c ≤ 23041 := by
  have h1 := BME280_t_fine_bounds adc_T c
  have hm : mul32 (BME280_t_fine adc_T c) 5 = BME280_t_fine adc_T c * 5 := by
    unfold mul32 toInt32
    omega
  have ha : add32 (mul32 (BME280_t_fine adc_T c) 5) 128 =
      BME280_t_fine adc_T c * 5 + 128 := by
    rw [hm]
    unfold add32 toInt32
    omega
  unfold BME280_temp_scaled
  rw [ha]
  unfold sar
  norm_num
  omega

/-- Claim C2: for every raw temperature ADC word and every calibration
set, the stored pair is exactly the truncating-toward-zero split of the
scaled value T computed by the two-stage fixed-point formula:
temp_integer = T/100 under C division, temp_fraction = T mod 100 with
sign-following truncation; equivalently 100*integer + fraction = T with
the fraction in [-99, 99] and carrying the sign of T.  The int16 stores
never wrap, so the outputs match the reference formula bit-for-bit. -/
theorem C2_temperature_split (adc_T : Int) (c : Calib) :
    (BME280_temp adc_T c).1 = Int.tdiv (BME280_temp_scaled adc_T c) 100 ∧
    (BME280_temp adc_T c).2 = Int.tmod (BME280_temp_scaled adc_T c) 100 ∧
    100 * (BME280_temp adc_T c).1 + (BME280_temp adc_T c).2 =
      BME280_temp_scaled adc_T c ∧
    -99 ≤ (BME280_temp adc_T c).2 ∧ (BME280_temp adc_T c).2 ≤ 99 ∧
    ((0 ≤ BME280_temp_scaled adc_T c ∧ 0 ≤ (BME280_temp adc_T c).2) ∨
     (BME280_temp_scaled adc_T c ≤ 0 ∧ (BME280_temp adc_T c).2 ≤ 0)) := by
  obtain ⟨hT1, hT2⟩ := BME280_temp_scaled_bounds adc_T c
  have hBT : BME280_temp adc_T c =
      (toInt16 (Int.tdiv (BME280_temp_scaled adc_T c) 100),
       toInt16 (Int.tmod (BME280_temp_scaled adc_T c) 100)) := rfl
  rw [hBT]
  have hdm := Int.tdiv_add_tmod (BME280_temp_scaled adc_T c) 100
  have hrange := tmod_range (BME280_temp_scaled adc_T c) 100 (by norm_num)
  rcases le_or_lt 0 (BME280_temp_scaled adc_T c) with h0 | h0
  · have hs := Int.tmod_nonneg 100 h0
    unfold toInt16
    omega
  · have hs := tmod_nonpos_left (BME280_temp_scaled adc_T c) 100 (by omega)
    unfold toInt16
    omega

/-- Helper: an int16 store of an in-range value is the identity. -/
theorem toInt16_eq_self (x : Int) (h1 : -32768 ≤ x) (h2 : x ≤ 32767) :
    toInt16 x = x := by
  unfold toInt16
  omega

/-- Helper: output ranges of the final humidity split, for any clamped
1024ths-of-percent value in [0, 102400]. -/
theorem hum_out_bounds (h : Int) (h0 : 0 ≤ h) (h1 : h ≤ 102400) :
    0 ≤ toInt16 (Int.tdiv h 1024) ∧ toInt16 (Int.tdiv h 1024) ≤ 102 ∧
    0 ≤ toInt16 (Int.tdiv (mul32 (Int.tmod h 1024) 100) 1024) ∧
    toInt16 (Int.tdiv (mul32 (Int.tmod h 1024) 100) 1024) ≤ 99 := by
  have e1 : Int.tdiv h 1024 = h / 1024 := Int.tdiv_eq_ediv h0 (by norm_num)
  have e2 : Int.tmod h 1024 = h % 1024 := Int.tmod_eq_emod h0 (by norm_num)
  have e3 : mul32 (h % 1024) 100 = h % 1024 * 100 := by
    unfold mul32 toInt32
    omega
  have h4 : 0 ≤ h % 1024 * 100 := by omega
  have e4 : Int.tdiv (h % 1024 * 100) 1024 = h % 1024 * 100 / 1024 :=
    Int.tdiv_eq_ediv h4 (by norm_num)
  rw [e1, e2, e3, e4]
  have hq : 0 ≤ h / 1024 ∧ h / 1024 ≤ 100 := by omega
  have hr : 0 ≤ h % 1024 * 100 / 1024 ∧ h % 1024 * 100 / 1024 ≤ 99 := by omega
  rw [toInt16_eq_self _ (by omega) (by omega), toInt16_eq_self _ (by omega) (by omega)]
  omega

/-- Claim C4: for every raw humidity ADC word, fine-temperature value and
calibration set, the intermediate fixed-point value is clamped into
[0, 419430400] before the final split, so the output humidity integer
part is always within [0, 102] and the fractional part within [0, 99]. -/
theorem C4_humidity_range (adc_H t_fine : Int) (c : Calib) :
    0 ≤ (BME280_humidity adc_H t_fine c).1 ∧
    (BME280_humidity adc_H t_fine c).1 ≤ 102 ∧
    0 ≤ (BME280_humidity adc_H t_fine c).2 ∧
    (BME280_humidity adc_H t_fine c).2 ≤ 99 := by
  set v := BME280_hum_raw adc_H t_fine c with hv
  set v3 := (if 419430400 < (if v < 0 then 0 else v) then 419430400
             else (if v < 0 then 0 else v)) with hv3
  have hc : 0 ≤ v3 ∧ v3 ≤ 419430400 := by
    rw [hv3]
    split_ifs <;> omega
  have hH : 0 ≤ sar v3 12 ∧ sar v3 12 ≤ 102400 := by
    show 0 ≤ v3 / 2 ^ 12 ∧ v3 / 2 ^ 12 ≤ 102400
    norm_num
    omega
  have hb := hum_out_bounds (sar v3 12) hH.1 hH.2
  have hrfl : BME280_humidity adc_H t_fine c =
      (toInt16 (Int.tdiv (sar v3 12) 1024),
       toInt16 (Int.tdiv (mul32 (Int.tmod (sar v3 12) 1024) 100) 1024)) := rfl
  rw [hrfl]
  exact ⟨hb.1, hb.2.1, hb.2.2.1, hb.2.2.2⟩

/-- Claim C7: for a reading with temperature integer part −5 and fraction
25, the formatter writes exactly the bytes of "-5.25" (45, 53, 46, 50,
53), then the 0x60 degree mark (96) and the letter C (67), then the 0 terminator,
with no other characters. -/
theorem C7_negative_temp_rendering :
    tempLine (-5) 25 = [45, 53, 46, 50, 53, 96, 67, 0] := by decide

/-- Helper: a rendered line always ends with the 0 terminator byte. -/
theorem line_last (l : List Nat) : (l ++ [0]).getLast? = some 0 := by
  simp [List.getLast?_append]

/-- Claim C8: for every reading, each of the three rendered strings fits
in the 22-byte caller buffer — the byte count written, including the
sign character, the two fraction digits, the unit suffix and the
terminator, never exceeds 22 — and the last byte written is the 0
sentinel.  This holds for all integer and fraction arguments, hence in
particular for the documented per-field maxima. -/
theorem C8_formatter_bounds (temp_i temp_f hum_i hum_f press_i press_f : Int) :
    (tempLine temp_i temp_f).length ≤ 22 ∧
    (tempLine temp_i temp_f).getLast? = some 0 ∧
    (humLine hum_i hum_f).length ≤ 22 ∧
    (humLine hum_i hum_f).getLast? = some 0 ∧
    (pressLine press_i press_f).length ≤ 22 ∧
    (pressLine press_i press_f).getLast? = some 0 := by
  refine ⟨?_, line_last _, ?_, line_last _, ?_, line_last _⟩
  · unfold tempLine tempBody
    split_ifs <;> simp <;> (try split_ifs) <;> (try simp)
  · unfold humLine humBody
    split_ifs <;> simp
  · unfold pressLine pressBody
    split_ifs <;> simp

/-- Helper: assembling a byte shifted left by 8 with a low byte is plain
positional arithmetic. -/
theorem lor8 (x y : Nat) (hy : y < 256) : x <<< 8 ||| y = 256 * x + y := by
  have hy2 : y < 2 ^ 8 := by norm_num [hy]
  have h := (Nat.mul_add_lt_is_or hy2 x).symm
  rw [Nat.shiftLeft_eq, Nat.mul_comm x (2 ^ 8)]
  norm_num at h ⊢
  omega

/-- Helper: assembling a value shifted left by 4 with a low nibble is
plain positional arithmetic. -/
theorem lor4 (x y : Nat) (hy : y < 16) : x <<< 4 ||| y = 16 * x + y := by
  have hy2 : y < 2 ^ 4 := by norm_num [hy]
  have h := (Nat.mul_add_lt_is_or hy2 x).symm
  rw [Nat.shiftLeft_eq, Nat.mul_comm x (2 ^ 4)]
  norm_num at h ⊢
  omega

/-- Helper: an unsigned 16-bit little-endian store decodes positionally. -/
theorem dec_u16 (hi lo : Nat) (hh : hi < 256) (hl : lo < 256) :
    (((hi <<< 8 ||| lo) % 65536 : Nat) : Int) = 256 * hi + lo := by
  rw [lor8 hi lo hl]
  omega

/-- Helper: a signed 16-bit little-endian store decodes positionally
modulo 2^16. -/
theorem dec_s16 (hi lo : Nat) (hh : hi < 256) (hl : lo < 256) :
    decodesLE16 (toInt16 ((hi <<< 8 ||| lo : Nat) : Int)) lo hi := by
  rw [lor8 hi lo hl]
  unfold decodesLE16 toInt16
  refine ⟨?_, ?_, ?_⟩ <;> omega

/-- Helper: an unsigned 8-bit store of a byte is the byte itself. -/
theorem dec_u8 (b : Nat) (hb : b < 256) : (((b % 256 : Nat)) : Int) = b := by
  omega

/-- Helper: decoding of the nibble-packed H4 coefficient. -/
theorem dec_H4 (b3 b4 : Nat) (h3 : b3 < 256) (h4 : b4 < 256) :
    toInt16 ((b3 <<< 4 ||| (b4 &&& 15) : Nat) : Int) = 16 * b3 + b4 % 16 := by
  have hand : b4 &&& 15 = b4 % 16 := by
    have h := Nat.and_pow_two_sub_one_eq_mod b4 4
    norm_num at h
    exact h
  rw [hand, lor4 b3 (b4 % 16) (by omega)]
  unfold toInt16
  omega

/-- Helper: decoding of the nibble-packed H5 coefficient. -/
theorem dec_H5 (b5 b4 : Nat) (h5 : b5 < 256) (h4 : b4 < 256) :
    toInt16 ((b5 <<< 4 ||| b4 >>> 4 : Nat) : Int) = 16 * b5 + b4 / 16 := by
  have hshr : b4 >>> 4 = b4 / 16 := by
    have h := Nat.shiftRight_eq_div_pow b4 4
    norm_num at h
    exact h
  rw [hshr, lor4 b5 (b4 / 16) (by omega)]
  unfold toInt16
  omega

/-- Helper: a signed 8-bit store decodes the byte modulo 2^8. -/
theorem dec_s8 (b : Nat) (hb : b < 256) : decodesS8 (toInt8 (b : Int)) b := by
  unfold decodesS8 toInt8
  refine ⟨?_, ?_, ?_⟩ <;> omega

/-- Claim C5: for every 26-byte and 7-byte calibration block, the decoder
parses all 16-bit coefficients as little-endian words (low byte first);
the nibble-packed humidity coefficients are H4 = first packed byte as the
high part (shifted by 4) combined with the low nibble of the shared
middle byte, and H5 = the byte after the shared byte as the high part
combined with the high nibble of that shared byte; and the final
coefficient H6 is a plain signed byte. -/
theorem C5_calibration_decode (calib1 calib2 : Nat → Nat)
    (h1 : ∀ i, i < 26 → calib1 i < 256) (h2 : ∀ i, i < 7 → calib2 i < 256) :
    (BME280_read_calibration calib1 calib2).dig_T1 = 256 * calib1 1 + calib1 0 ∧
    decodesLE16 (BME280_read_calibration calib1 calib2).dig_T2 (calib1 2) (calib1 3) ∧
    decodesLE16 (BME280_read_calibration calib1 calib2).dig_T3 (calib1 4) (calib1 5) ∧
    (BME280_read_calibration calib1 calib2).dig_P1 = 256 * calib1 7 + calib1 6 ∧
    decodesLE16 (BME280_read_calibration calib1 calib2).dig_P2 (calib1 8) (calib1 9) ∧
    decodesLE16 (BME280_read_calibration calib1 calib2).dig_P3 (calib1 10) (calib1 11) ∧
    decodesLE16 (BME280_read_calibration calib1 calib2).dig_P4 (calib1 12) (calib1 13) ∧
    decodesLE16 (BME280_read_calibration calib1 calib2).dig_P5 (calib1 14) (calib1 15) ∧
    decodesLE16 (BME280_read_calibration calib1 calib2).dig_P6 (calib1 16) (calib1 17) ∧
    decodesLE16 (BME280_read_calibration calib1 calib2).dig_P7 (calib1 18) (calib1 19) ∧
    decodesLE16 (BME280_read_calibration calib1 calib2).dig_P8 (calib1 20) (calib1 21) ∧
    decodesLE16 (BME280_read_calibration calib1 calib2).dig_P9 (calib1 22) (calib1 23) ∧
    (BME280_read_calibration calib1 calib2).dig_H1 = calib1 25 ∧
    decodesLE16 (BME280_read_calibration calib1 calib2).dig_H2 (calib2 0) (calib2 1) ∧
    (BME280_read_calibration calib1 calib2).dig_H3 = calib2 2 ∧
    (BME280_read_calibration calib1 calib2).dig_H4 = 16 * calib2 3 + calib2 4 % 16 ∧
    (BME280_read_calibration calib1 calib2).dig_H5 = 16 * calib2 5 + calib2 4 / 16 ∧
    decodesS8 (BME280_read_calibration calib1 calib2).dig_H6 (calib2 6) := by
  unfold BME280_read_calibration
  exact ⟨dec_u16 _ _ (h1 1 (by norm_num)) (h1 0 (by norm_num)),
    dec_s16 _ _ (h1 3 (by norm_num)) (h1 2 (by norm_num)),
    dec_s16 _ _ (h1 5 (by norm_num)) (h1 4 (by norm_num)),
    dec_u16 _ _ (h1 7 (by norm_num)) (h1 6 (by norm_num)),
    dec_s16 _ _ (h1 9 (by norm_num)) (h1 8 (by norm_num)),
    dec_s16 _ _ (h1 11 (by norm_num)) (h1 10 (by norm_num)),
    dec_s16 _ _ (h1 13 (by norm_num)) (h1 12 (by norm_num)),
    dec_s16 _ _ (h1 15 (by norm_num)) (h1 14 (by norm_num)),
    dec_s16 _ _ (h1 17 (by norm_num)) (h1 16 (by norm_num)),
    dec_s16 _ _ (h1 19 (by norm_num)) (h1 18 (by norm_num)),
    dec_s16 _ _ (h1 21 (by norm_num)) (h1 20 (by norm_num)),
    dec_s16 _ _ (h1 23 (by norm_num)) (h1 22 (by norm_num)),
    dec_u8 _ (h1 25 (by norm_num)),
    dec_s16 _ _ (h2 1 (by norm_num)) (h2 0 (by norm_num)),
    dec_u8 _ (h2 2 (by norm_num)),
    dec_H4 _ _ (h2 3 (by norm_num)) (h2 4 (by norm_num)),
    dec_H5 _ _ (h2 5 (by norm_num)) (h2 4 (by norm_num)),
    dec_s8 _ (h2 6 (by norm_num))⟩

/-- Witness for C5 on concrete calibration blocks (byte i holds value i):
checks the little-endian T1 word and both nibble-packed coefficients. -/
theorem C5_witness :
    (BME280_read_calibration (fun i => i) (fun i => i)).dig_T1 = 256 ∧
    (BME280_read_calibration (fun i => i) (fun i => i)).dig_H4 = 52 ∧
    (BME280_read_calibration (fun i => i) (fun i => i)).dig_H5 = 80 := by
  have h := C5_calibration_decode (fun i => i) (fun i => i)
    (fun i hi => by show i < 256; omega) (fun i hi => by show i < 256; omega)
  obtain ⟨hT1, -, -, -, -, -, -, -, -, -, -, -, -, -, -, hH4, hH5, -⟩ := h
  refine ⟨?_, ?_, ?_⟩
  · simpa using hT1
  · simpa using hH4
  · simpa using hH5

/-- Helper: pointwise effect of one guarded byte store. -/
theorem bufWrite_at (buf : Nat → Nat) (idx v j : Nat) :
    bufWrite buf idx v j = if j = idx ∧ idx < 1024 then v else buf j := by
  unfold bufWrite
  split_ifs with h1 h2 <;> simp_all

/-- Helper: for an in-bounds call on a supported symbol, the byte at
offset `i` of the glyph cell is written whenever its linear index is
below the buffer size 1024: glyph column for i < 5, blank spacing column
for i = 5. -/
theorem oled_putc_writes (font : Nat → Nat → Nat) (buf : Nat → Nat)
    (x y c k i : Nat) (hx : x < 128) (hy : y < 8)
    (hc : oled_glyph_index c = some k) (hi : i < 6)
    (hin : y * 128 + x + i < 1024) :
    oled_putc font buf x y c (y * 128 + x + i) = if i = 5 then 0 else font k i := by
  unfold oled_putc
  rw [if_neg (by omega), hc]
  simp only [bufWrite_at]
  interval_cases i <;> split_ifs <;> simp_all

/-- Helper: no call ever modifies a byte at or beyond the buffer size. -/
theorem oled_putc_high (font : Nat → Nat → Nat) (buf : Nat → Nat)
    (x y c j : Nat) (hj : 1024 ≤ j) :
    oled_putc font buf x y c j = buf j := by
  unfold oled_putc
  split_ifs with h1
  · rfl
  · cases hc : oled_glyph_index c with
    | none => rfl
    | some k =>
      simp only [bufWrite_at]
      split_ifs <;> (try rfl) <;> omega

/-- Claim C9: for an in-bounds glyph blit on a supported symbol, each of
the 6 byte writes is suppressed only when its linear index reaches the
buffer size 1024; so when the column exceeds width − 6 = 122 on a page
other than the last, the trailing glyph bytes land in the first six
columns of the byte row of the next page, and on the last page (7) they are
dropped, leaving those bytes of the buffer unchanged. -/
theorem C9_glyph_spillover (font : Nat → Nat → Nat) (buf : Nat → Nat)
    (x y c k i : Nat) (hx1 : 122 < x) (hx2 : x < 128) (hy : y < 8)
    (hc : oled_glyph_index c = some k) (hi : i < 6) (hxi : 128 ≤ x + i) :
    (y * 128 + x + i < 1024 →
      oled_putc font buf x y c (y * 128 + x + i) = if i = 5 then 0 else font k i) ∧
    (y < 7 →
      (y + 1) * 128 + (x + i - 128) = y * 128 + x + i ∧
      x + i - 128 < 6 ∧
      oled_putc font buf x y c ((y + 1) * 128 + (x + i - 128)) =
        if i = 5 then 0 else font k i) ∧
    (y = 7 → oled_putc font buf x y c (y * 128 + x + i) = buf (y * 128 + x + i)) := by
  refine ⟨fun hin => oled_putc_writes font buf x y c k i hx2 hy hc hi hin,
    fun h7 => ?_, fun h7 => ?_⟩
  · have heq : (y + 1) * 128 + (x + i - 128) = y * 128 + x + i := by omega
    refine ⟨heq, by omega, ?_⟩
    rw [heq]
    exact oled_putc_writes font buf x y c k i hx2 hy hc hi (by omega)
  · exact oled_putc_high font buf x y c _ (by omega)

/-- Witness for C9: column 125, glyph offset 4 spills to byte 513 (the
second column of page 4) when blitting on page 3, and is dropped (byte
1025 untouched) when blitting on the last page 7. -/
theorem C9_witness :
    oled_putc (fun _ _ => 9) (fun _ => 1) 125 3 48 513 = 9 ∧
    oled_putc (fun _ _ => 9) (fun _ => 1) 125 7 48 1025 = 1 := by
  have h3 := C9_glyph_spillover (fun _ _ => 9) (fun _ => 1) 125 3 48 3 4
    (by norm_num) (by norm_num) (by norm_num) (by decide) (by norm_num) (by norm_num)
  have h7 := C9_glyph_spillover (fun _ _ => 9) (fun _ => 1) 125 7 48 3 4
    (by norm_num) (by norm_num) (by norm_num) (by decide) (by norm_num) (by norm_num)
  constructor
  · have hb := h3.1 (by norm_num)
    simpa using hb
  · have hb := (h7.2.2) rfl
    simpa using hb

/-- Helper: the two fraction characters emitted by the formatter are both
ASCII decimal digits exactly when the fraction argument is nonnegative,
for arguments in the magnitude range [-99, 99] produced by the
compensation. -/
theorem fracChars_digit_iff (g : Int) (h1 : -99 ≤ g) (h2 : g ≤ 99) :
    (isDigitByte (fracChars g).1 ∧ isDigitByte (fracChars g).2) ↔ 0 ≤ g := by
  unfold fracChars charOf isDigitByte
  have hd := Int.tdiv_add_tmod g 10
  have hr := tmod_range g 10 (by norm_num)
  rcases le_or_lt 0 g with hp | hn
  · have hr0 : 0 ≤ Int.tmod g 10 := Int.tmod_nonneg 10 hp
    have hq0 : 0 ≤ Int.tdiv g 10 := Int.tdiv_nonneg hp (by norm_num)
    simp only
    omega
  · have hr0 : Int.tmod g 10 ≤ 0 := tmod_nonpos_left g 10 (by omega)
    have hq1 : 0 ≤ Int.tdiv (-g) 10 := Int.tdiv_nonneg (by omega) (by norm_num)
    have hq2 := Int.neg_tdiv g 10
    simp only
    omega

/-- Claim C10: the stored temperature fraction is T mod 100 under C
truncation semantics, hence negative (not a separately carried
magnitude) whenever the scaled temperature T is negative with nonzero
remainder; the two fraction characters of the formatter are ASCII decimal
digits precisely when the fraction argument is in [0, 99]; hence feeding
the compensation output of a negative temperature with nonzero fraction
directly to the formatter yields fraction characters that are not both
decimal digits. -/
theorem C10_negative_fraction_not_digits (adc_T : Int) (c : Calib) (g : Int)
    (hg1 : -99 ≤ g) (hg2 : g ≤ 99)
    (hT : BME280_temp_scaled adc_T c < 0)
    (hm : Int.tmod (BME280_temp_scaled adc_T c) 100 ≠ 0) :
    (BME280_temp adc_T c).2 = Int.tmod (BME280_temp_scaled adc_T c) 100 ∧
    (BME280_temp adc_T c).2 < 0 ∧
    ((isDigitByte (fracChars g).1 ∧ isDigitByte (fracChars g).2) ↔ 0 ≤ g) ∧
    ¬ (isDigitByte (fracChars ((BME280_temp adc_T c).2)).1 ∧
       isDigitByte (fracChars ((BME280_temp adc_T c).2)).2) := by
  have hr := tmod_range (BME280_temp_scaled adc_T c) 100 (by norm_num)
  have hneg : Int.tmod (BME280_temp_scaled adc_T c) 100 ≤ 0 :=
    tmod_nonpos_left _ 100 (by omega)
  have hsplit : (BME280_temp adc_T c).2 =
      Int.tmod (BME280_temp_scaled adc_T c) 100 := by
    show toInt16 (Int.tmod (BME280_temp_scaled adc_T c) 100) = _
    exact toInt16_eq_self _ (by omega) (by omega)
  refine ⟨hsplit, by omega, fracChars_digit_iff g hg1 hg2, ?_⟩
  rw [hsplit]
  intro hdig
  have hcontra := (fracChars_digit_iff _ (by omega) (by omega)).mp hdig
  omega

/-- Witness for C10 at raw word 0 with calibration T1 = 1000,
T2 = 20000: the scaled temperature is −381, the stored fraction −81, and
the rendered fraction characters are not decimal digits. -/
theorem C10_witness :
    BME280_temp_scaled 0 ⟨1000, 20000, 0, 0, 0, 0, 0, 0, 0, 0, 0, 0, 0, 0, 0, 0, 0, 0⟩ < 0 ∧
    (BME280_temp 0 ⟨1000, 20000, 0, 0, 0, 0, 0, 0, 0, 0, 0, 0, 0, 0, 0, 0, 0, 0⟩).2 = -81 ∧
    ¬ (isDigitByte
        (fracChars ((BME280_temp 0
          ⟨1000, 20000, 0, 0, 0, 0, 0, 0, 0, 0, 0, 0, 0, 0, 0, 0, 0, 0⟩).2)).1 ∧
       isDigitByte
        (fracChars ((BME280_temp 0
          ⟨1000, 20000, 0, 0, 0, 0, 0, 0, 0, 0, 0, 0, 0, 0, 0, 0, 0, 0⟩).2)).2) := by
  have h := C10_negative_fraction_not_digits 0
    ⟨1000, 20000, 0, 0, 0, 0, 0, 0, 0, 0, 0, 0, 0, 0, 0, 0, 0, 0⟩ (-25)
    (by norm_num) (by norm_num) (by decide) (by decide)
  exact ⟨by decide, by decide, h.2.2.2⟩

end Thermo
